import Mathlib

/-!
Verification development for the bankr-tracker repository: a shallow
embedding of the launch store (SQLite table semantics), the alert engine,
the DexScreener discovery/filter service, the retrying client and the
alert-command parser, with theorems settling the specification claims.

Numeric SQL/JS values are modelled as rationals (ℚ); timestamps are
rationals holding Unix milliseconds.  Nullable SQL columns are modelled
as `Option` fields.
-/

namespace BankrTracker

/-- JS `a || b` on a possibly-null number: `null`, `undefined` and `0`
are falsy, so the fallback is used for `none` and for `some 0`. -/
def jsOr (a : Option ℚ) (b : ℚ) : ℚ :=
  match a with
  | none => b
  | some x => if x = 0 then b else x

/-- The `TokenLaunch` interface of `src/types.ts`: the normalized launch
record produced by `pairToLaunch`, with every field present. -/
structure TokenLaunch where
  pairAddress : String
  tokenAddress : String
  name : String
  symbol : String
  dexId : String
  priceUsd : ℚ
  marketCap : ℚ
  volume24h : ℚ
  liquidityUsd : ℚ
  priceChange24h : ℚ
  pairCreatedAt : ℚ
  dexscreenerUrl : String
  lastUpdated : ℚ
deriving DecidableEq, Repr

/-- One row of the `launches` table of `src/database/store.ts`.
`pair_address` is the TEXT PRIMARY KEY and `token_address` is NOT NULL;
every other column is nullable, hence `Option`. -/
structure LaunchRow where
  pairAddress : String
  tokenAddress : String
  name : Option String
  symbol : Option String
  dexId : Option String
  priceUsd : Option ℚ
  marketCap : Option ℚ
  volume24h : Option ℚ
  liquidityUsd : Option ℚ
  priceChange24h : Option ℚ
  pairCreatedAt : Option ℚ
  dexscreenerUrl : Option String
  lastUpdated : Option ℚ
deriving DecidableEq, Repr

/-- The row written by the INSERT branch of `upsertLaunch`: every column
is bound to the corresponding `TokenLaunch` field. -/
def toRow (l : TokenLaunch) : LaunchRow where
  pairAddress := l.pairAddress
  tokenAddress := l.tokenAddress
  name := some l.name
  symbol := some l.symbol
  dexId := some l.dexId
  priceUsd := some l.priceUsd
  marketCap := some l.marketCap
  volume24h := some l.volume24h
  liquidityUsd := some l.liquidityUsd
  priceChange24h := some l.priceChange24h
  pairCreatedAt := some l.pairCreatedAt
  dexscreenerUrl := some l.dexscreenerUrl
  lastUpdated := some l.lastUpdated

/-- The `ON CONFLICT(pair_address) DO UPDATE SET` branch of
`upsertLaunch`: only `price_usd`, `market_cap`, `volume_24h`,
`liquidity_usd`, `price_change_24h` and `last_updated` are overwritten;
all other columns of the existing row are kept. -/
def mergeRow (l : TokenLaunch) (r : LaunchRow) : LaunchRow :=
  { r with
    priceUsd := some l.priceUsd
    marketCap := some l.marketCap
    volume24h := some l.volume24h
    liquidityUsd := some l.liquidityUsd
    priceChange24h := some l.priceChange24h
    lastUpdated := some l.lastUpdated }

/-- `LaunchStore.upsertLaunch`: INSERT with ON CONFLICT(pair_address)
DO UPDATE.  The table is modelled as a list of rows; the primary key
selects the conflicting row. -/
def upsertLaunch (rows : List LaunchRow) (l : TokenLaunch) : List LaunchRow :=
  if rows.any (fun r => r.pairAddress = l.pairAddress) then
    rows.map (fun r => if r.pairAddress = l.pairAddress then mergeRow l r else r)
  else
    rows ++ [toRow l]

/-- `LaunchStore.upsertLaunches`: the batched transaction runs the
single-row upsert over the batch in order. -/
def upsertLaunches (rows : List LaunchRow) (ls : List TokenLaunch) : List LaunchRow :=
  ls.foldl upsertLaunch rows

/-- Example row for the C2 witness: the state after a first insert. -/
def c2Row : LaunchRow :=
  { pairAddress := "0xpool1", tokenAddress := "0xtok1", name := some "Alpha",
    symbol := some "ALF", dexId := some "uniswap", priceUsd := some 1,
    marketCap := some 1000, volume24h := some 50, liquidityUsd := some 2000,
    priceChange24h := some 5, pairCreatedAt := some 111000,
    dexscreenerUrl := some "https://dexscreener.com/base/0xpool1",
    lastUpdated := some 222000 }

/-- Example launch for the C2 witness: a later observation of the same
pool with different market numbers and a different claimed identity. -/
def c2Launch : TokenLaunch :=
  { pairAddress := "0xpool1", tokenAddress := "0xother", name := "Beta",
    symbol := "BET", dexId := "aerodrome", priceUsd := 2, marketCap := 3000,
    volume24h := 75, liquidityUsd := 2500, priceChange24h := -3,
    pairCreatedAt := 999000,
    dexscreenerUrl := "https://dexscreener.com/base/other",
    lastUpdated := 333000 }

/-- C2: upserting a launch whose pool address collides with a stored row
overwrites exactly the mutable market columns (priceUsd, marketCap,
volume24h, liquidityUsd, priceChange24h, lastUpdated) of that row, keeps
tokenAddress, name, symbol, dexId, pairCreatedAt and the DexScreener URL
from the first insert, and inserts no new row. -/
theorem upsertLaunch_preserves_identity
    (rows : List LaunchRow) (l : TokenLaunch) (r : LaunchRow)
    (hr : r ∈ rows) (hk : r.pairAddress = l.pairAddress) :
    mergeRow l r ∈ upsertLaunch rows l ∧
    (mergeRow l r).pairAddress = r.pairAddress ∧
    (mergeRow l r).tokenAddress = r.tokenAddress ∧
    (mergeRow l r).name = r.name ∧
    (mergeRow l r).symbol = r.symbol ∧
    (mergeRow l r).dexId = r.dexId ∧
    (mergeRow l r).pairCreatedAt = r.pairCreatedAt ∧
    (mergeRow l r).dexscreenerUrl = r.dexscreenerUrl ∧
    (mergeRow l r).priceUsd = some l.priceUsd ∧
    (mergeRow l r).marketCap = some l.marketCap ∧
    (mergeRow l r).volume24h = some l.volume24h ∧
    (mergeRow l r).liquidityUsd = some l.liquidityUsd ∧
    (mergeRow l r).priceChange24h = some l.priceChange24h ∧
    (mergeRow l r).lastUpdated = some l.lastUpdated ∧
    (upsertLaunch rows l).length = rows.length := by
  have hany : rows.any (fun r => r.pairAddress = l.pairAddress) = true := by
    refine List.any_eq_true.mpr ⟨r, hr, ?_⟩
    simp [hk]
  constructor
  · unfold upsertLaunch
    rw [if_pos hany]
    exact List.mem_map.mpr ⟨r, hr, by rw [if_pos hk]⟩
  · refine ⟨rfl, rfl, rfl, rfl, rfl, rfl, rfl, rfl, rfl, rfl, rfl, rfl, rfl, ?_⟩
    unfold upsertLaunch
    rw [if_pos hany, List.length_map]

/-- Witness for C2 at a concrete store: the hypotheses hold for
`c2Row`/`c2Launch` and the theorem applies. -/
theorem upsertLaunch_preserves_identity_witness :
    (c2Row ∈ [c2Row] ∧ c2Row.pairAddress = c2Launch.pairAddress) ∧
    (mergeRow c2Launch c2Row ∈ upsertLaunch [c2Row] c2Launch ∧
     (mergeRow c2Launch c2Row).pairAddress = c2Row.pairAddress ∧
     (mergeRow c2Launch c2Row).tokenAddress = c2Row.tokenAddress ∧
     (mergeRow c2Launch c2Row).name = c2Row.name ∧
     (mergeRow c2Launch c2Row).symbol = c2Row.symbol ∧
     (mergeRow c2Launch c2Row).dexId = c2Row.dexId ∧
     (mergeRow c2Launch c2Row).pairCreatedAt = c2Row.pairCreatedAt ∧
     (mergeRow c2Launch c2Row).dexscreenerUrl = c2Row.dexscreenerUrl ∧
     (mergeRow c2Launch c2Row).priceUsd = some c2Launch.priceUsd ∧
     (mergeRow c2Launch c2Row).marketCap = some c2Launch.marketCap ∧
     (mergeRow c2Launch c2Row).volume24h = some c2Launch.volume24h ∧
     (mergeRow c2Launch c2Row).liquidityUsd = some c2Launch.liquidityUsd ∧
     (mergeRow c2Launch c2Row).priceChange24h = some c2Launch.priceChange24h ∧
     (mergeRow c2Launch c2Row).lastUpdated = some c2Launch.lastUpdated ∧
     (upsertLaunch [c2Row] c2Launch).length = [c2Row].length) :=
  ⟨⟨List.mem_singleton.mpr rfl, rfl⟩,
   upsertLaunch_preserves_identity [c2Row] c2Launch c2Row
     (List.mem_singleton.mpr rfl) rfl⟩

/-! ### Query layer: sorting with SQL DESC NULLS LAST semantics -/

/-- Order on nullable sort keys: a NULL column is below every value —
in SQLite NULL sorts as the smallest value, so `DESC` (and the explicit
`NULLS LAST`) places NULL keys last. -/
def optLe : Option ℚ → Option ℚ → Bool
  | none, _ => true
  | some _, none => false
  | some a, some b => a ≤ b

/-- Descending order by a nullable key: `a` may precede `b` exactly when
the key of `b` is at most the key of `a`. -/
def descBy (k : α → Option ℚ) (a b : α) : Prop := optLe (k b) (k a) = true

instance (k : α → Option ℚ) : DecidableRel (descBy k) := fun a b =>
  inferInstanceAs (Decidable (optLe (k b) (k a) = true))

instance (k : α → Option ℚ) : IsTotal α (descBy k) := by
  constructor
  intro a b
  unfold descBy
  cases hb : k b with
  | none => left; simp [optLe]
  | some qb =>
    cases ha : k a with
    | none => right; simp [optLe]
    | some qa =>
      rcases le_total qb qa with h | h
      · left; simp [optLe, h]
      · right; simp [optLe, h]

instance (k : α → Option ℚ) : IsTrans α (descBy k) := by
  constructor
  intro a b c hab hbc
  unfold descBy at *
  cases hc : k c with
  | none => simp [optLe]
  | some qc =>
    cases hb : k b with
    | none => rw [hc, hb] at hbc; simp [optLe] at hbc
    | some qb =>
      cases ha : k a with
      | none => rw [hb, ha] at hab; simp [optLe] at hab
      | some qa =>
        rw [hb, ha] at hab
        rw [hc, hb] at hbc
        simp only [optLe, decide_eq_true_eq] at hab hbc ⊢
        exact le_trans hbc hab

/-- The `SortOption` type of `src/types.ts`. -/
inductive SortOption
  | volume
  | mcap
  | age
deriving DecidableEq, Repr

/-- The ORDER BY key of `getLaunches`: `volume_24h DESC NULLS LAST`,
`market_cap DESC NULLS LAST` or `pair_created_at DESC`. -/
def sortKey : SortOption → LaunchRow → Option ℚ
  | .volume, r => r.volume24h
  | .mcap, r => r.marketCap
  | .age, r => r.pairCreatedAt

/-- The cutoff `Date.now() - timeframeHours * 60 * 60 * 1000`. -/
def launchCutoff (now timeframeHours : ℚ) : ℚ :=
  now - timeframeHours * 60 * 60 * 1000

/-- The WHERE clause `pair_created_at >= cutoff`: a NULL column fails
the SQL comparison, so the row is excluded. -/
def inTimeframe (cutoff : ℚ) (r : LaunchRow) : Bool :=
  match r.pairCreatedAt with
  | none => false
  | some t => cutoff ≤ t

/-- `LaunchStore.getLaunches`: SELECT the rows satisfying the timeframe
WHERE clause, ORDER BY the chosen key descending (NULLS LAST), LIMIT. -/
def getLaunches (now : ℚ) (rows : List LaunchRow) (timeframeHours : ℚ)
    (sortBy : SortOption) (limit : ℕ) : List LaunchRow :=
  ((rows.filter (inTimeframe (launchCutoff now timeframeHours))).insertionSort
    (descBy (sortKey sortBy))).take limit

/-- The WHERE clause of `getTrendingLaunches`:
`pair_created_at >= cutoff AND volume_24h > 0 AND liquidity_usd > 0`
(a NULL column fails its SQL comparison). -/
def trendingPred (cutoff : ℚ) (r : LaunchRow) : Bool :=
  inTimeframe cutoff r &&
  (match r.volume24h with | none => false | some v => 0 < v) &&
  (match r.liquidityUsd with | none => false | some lq => 0 < lq)

/-- The ORDER BY expression of `getTrendingLaunches`:
`volume_24h * ABS(COALESCE(price_change_24h, 0) + 1)`.  A NULL
`volume_24h` makes the whole expression NULL; `COALESCE` replaces a NULL
`price_change_24h` by 0. -/
def trendScore (r : LaunchRow) : Option ℚ :=
  r.volume24h.map (fun v => v * |r.priceChange24h.getD 0 + 1|)

/-- `LaunchStore.getTrendingLaunches`: rows of the last 24 hours with
positive volume and liquidity, ordered by the trend score descending,
truncated to `limit`. -/
def getTrendingLaunches (now : ℚ) (rows : List LaunchRow) (limit : ℕ) :
    List LaunchRow :=
  ((rows.filter (trendingPred (launchCutoff now 24))).insertionSort
    (descBy trendScore)).take limit

/-- JS `String.prototype.toLowerCase` on the ASCII addresses and tickers
this system handles: lower-case every character. -/
def strLower (s : String) : String := ⟨s.data.map Char.toLower⟩

/-- JS `String.prototype.toUpperCase`, likewise per character. -/
def strUpper (s : String) : String := ⟨s.data.map Char.toUpper⟩

/-- `LaunchStore.getLaunchByToken`: rows whose `token_address` equals the
lower-cased argument, ORDER BY `volume_24h` DESC, LIMIT 1. -/
def getLaunchByToken (rows : List LaunchRow) (tokenAddress : String) :
    Option LaunchRow :=
  ((rows.filter (fun r => r.tokenAddress = strLower tokenAddress)).insertionSort
    (descBy (fun r => r.volume24h))).head?

/-! ### C5: timeframe query -/

/-- C5 example: launch aged 10 minutes at `c5Now`, highest volume. -/
def c5Row10min : LaunchRow :=
  { c2Row with
    pairAddress := "0xq1"
    tokenAddress := "0xt1"
    pairCreatedAt := some 199400000
    volume24h := some 90 }

/-- C5 example: launch aged 2 hours at `c5Now`. -/
def c5Row2h : LaunchRow :=
  { c2Row with
    pairAddress := "0xq2"
    tokenAddress := "0xt2"
    pairCreatedAt := some 192800000
    volume24h := some 40 }

/-- C5 example: launch aged 10 hours at `c5Now`. -/
def c5Row10h : LaunchRow :=
  { c2Row with
    pairAddress := "0xq3"
    tokenAddress := "0xt3"
    pairCreatedAt := some 164000000
    volume24h := some 500 }

/-- C5 example: launch aged 30 hours at `c5Now`. -/
def c5Row30h : LaunchRow :=
  { c2Row with
    pairAddress := "0xq4"
    tokenAddress := "0xt4"
    pairCreatedAt := some 92000000
    volume24h := some 700 }

/-- C5 example clock value (Unix ms). -/
def c5Now : ℚ := 200000000

/-- C5: `getLaunches` returns exactly the stored rows with
`pairCreatedAt >= now - timeframeHours` (a sorted permutation of that
filter), ordered descending by the selected sort key with missing sort
values last (the key of a NULL column is ⊥), truncated to `limit`; and
on the stores aged 10min/2h/10h/30h the 6-hour volume query returns
exactly the 10-minute and 2-hour rows. -/
theorem getLaunches_spec :
    (∀ (now : ℚ) (rows : List LaunchRow) (tf : ℚ) (sortBy : SortOption)
        (limit : ℕ),
      ∃ full : List LaunchRow,
        full.Perm (rows.filter (inTimeframe (launchCutoff now tf))) ∧
        full.Sorted (descBy (sortKey sortBy)) ∧
        getLaunches now rows tf sortBy limit = full.take limit) ∧
    getLaunches c5Now [c5Row30h, c5Row2h, c5Row10h, c5Row10min] 6
        SortOption.volume 10 = [c5Row10min, c5Row2h] := by
  constructor
  · intro now rows tf sortBy limit
    refine ⟨(rows.filter (inTimeframe (launchCutoff now tf))).insertionSort
      (descBy (sortKey sortBy)), ?_, ?_, rfl⟩
    · exact List.perm_insertionSort _ _
    · exact List.sorted_insertionSort _ _
  · norm_num [getLaunches, launchCutoff, inTimeframe, sortKey, descBy, optLe,
      c5Now, c5Row10min, c5Row2h, c5Row10h, c5Row30h, c2Row,
      List.insertionSort, List.orderedInsert, List.filter]

/-! ### C3: trending query -/

/-- C3 counterexample row: a collapsed token, 24h price change of -100%
(the stored `price_change_24h` value is -100), volume 10. -/
def c3RowA : LaunchRow :=
  { c2Row with
    pairAddress := "0xc1"
    tokenAddress := "0xca"
    pairCreatedAt := some 199000000
    volume24h := some 10
    liquidityUsd := some 5
    priceChange24h := some (-100) }

/-- C3 counterexample row: an unchanged token with volume 500. -/
def c3RowB : LaunchRow :=
  { c2Row with
    pairAddress := "0xc2"
    tokenAddress := "0xcb"
    pairCreatedAt := some 199000000
    volume24h := some 500
    liquidityUsd := some 5
    priceChange24h := some 0 }

/-- C3 counterexample: a 24h price change of -100% is the stored value
-100, whose score is `10 * |-100 + 1| = 990`, not zero — the collapsed
token therefore outranks a volume-500 token of score 500 instead of
being sent to the bottom. -/
theorem getTrendingLaunches_minus100_counterexample :
    trendScore c3RowA = some 990 ∧ (990 : ℚ) ≠ 0 ∧
    getTrendingLaunches c5Now [c3RowB, c3RowA] 10 = [c3RowA, c3RowB] := by
  refine ⟨?_, by norm_num, ?_⟩
  · norm_num [trendScore, c3RowA, c2Row]
  · norm_num [getTrendingLaunches, launchCutoff, inTimeframe, trendingPred,
      trendScore, descBy, optLe, c5Now, c3RowA, c3RowB, c2Row,
      List.insertionSort, List.orderedInsert, List.filter]

/-- C3 (amended): the trending query returns only rows created within
the last 24 hours with strictly positive `volume24h` and `liquidityUsd`,
ordered descending by `volume24h * |priceChange24h + 1|` and truncated
to `limit`; the score is zero when the stored `priceChange24h` equals
-1, while a 24h price change of -100% (stored as -100) receives score
`99 * volume24h`. -/
theorem getTrendingLaunches_spec :
    (∀ (now : ℚ) (rows : List LaunchRow) (limit : ℕ),
      ∃ full : List LaunchRow,
        full.Perm (rows.filter (trendingPred (launchCutoff now 24))) ∧
        full.Sorted (descBy trendScore) ∧
        getTrendingLaunches now rows limit = full.take limit) ∧
    (∀ (now : ℚ) (rows : List LaunchRow) (limit : ℕ)
        (r : LaunchRow), r ∈ getTrendingLaunches now rows limit →
      r ∈ rows ∧
      (∃ t, r.pairCreatedAt = some t ∧ launchCutoff now 24 ≤ t) ∧
      (∃ v, r.volume24h = some v ∧ 0 < v) ∧
      (∃ lq, r.liquidityUsd = some lq ∧ 0 < lq)) ∧
    (∀ (r : LaunchRow) (v : ℚ), r.volume24h = some v →
      r.priceChange24h = some (-1) → trendScore r = some 0) ∧
    (∀ (r : LaunchRow) (v : ℚ), r.volume24h = some v →
      r.priceChange24h = some (-100) → trendScore r = some (99 * v)) := by
  refine ⟨?_, ?_, ?_, ?_⟩
  · intro now rows limit
    exact ⟨(rows.filter (trendingPred (launchCutoff now 24))).insertionSort
      (descBy trendScore),
      List.perm_insertionSort _ _, List.sorted_insertionSort _ _, rfl⟩
  · intro now rows limit r hr
    have h1 : r ∈ (rows.filter (trendingPred (launchCutoff now 24))).insertionSort
        (descBy trendScore) := List.mem_of_mem_take hr
    have h2 : r ∈ rows.filter (trendingPred (launchCutoff now 24)) := by
      exact (List.mem_insertionSort _).mp h1
    have hmem : r ∈ rows := List.mem_of_mem_filter h2
    have hpred : trendingPred (launchCutoff now 24) r = true :=
      List.of_mem_filter h2
    unfold trendingPred inTimeframe at hpred
    refine ⟨hmem, ?_, ?_, ?_⟩
    · cases ht : r.pairCreatedAt with
      | none => rw [ht] at hpred; simp at hpred
      | some t =>
        rw [ht] at hpred
        refine ⟨t, rfl, ?_⟩
        by_contra hc
        simp [hc] at hpred
    · cases hv : r.volume24h with
      | none => rw [hv] at hpred; simp at hpred
      | some v =>
        rw [hv] at hpred
        refine ⟨v, rfl, ?_⟩
        by_contra hc
        simp [hc] at hpred
    · cases hl : r.liquidityUsd with
      | none => rw [hl] at hpred; simp at hpred
      | some lq =>
        rw [hl] at hpred
        refine ⟨lq, rfl, ?_⟩
        by_contra hc
        simp [hc] at hpred
  · intro r v hv hpc
    simp [trendScore, hv, hpc]
  · intro r v hv hpc
    rw [trendScore, hv, hpc]
    simp only [Option.map_some, Option.getD_some]
    norm_num
    ring

/-- Witness for the amended C3 at concrete rows: the -1 row scores zero
and the -100 row scores `99 * 10 = 990`. -/
theorem getTrendingLaunches_spec_witness :
    ({ c3RowA with priceChange24h := some (-1) }.volume24h = some 10 ∧
     trendScore { c3RowA with priceChange24h := some (-1) } = some 0) ∧
    (c3RowA.volume24h = some 10 ∧ trendScore c3RowA = some (99 * 10)) :=
  ⟨⟨rfl, getTrendingLaunches_spec.2.2.1 _ 10 rfl rfl⟩,
   ⟨rfl, getTrendingLaunches_spec.2.2.2 c3RowA 10 rfl rfl⟩⟩

/-! ### Alert engine (`src/alerts/checker.ts`) -/

/-- The `conditionType` values of the `Alert` interface. -/
inductive ConditionType
  | price
  | volume
  | mcap
deriving DecidableEq, Repr

/-- The comparison operators of the `Alert` interface. -/
inductive Operator
  | gt
  | lt
  | eq
deriving DecidableEq, Repr

/-- The `Alert` interface of `src/types.ts` / one row of the `alerts`
table. -/
structure Alert where
  id : ℕ
  userId : String
  tokenAddress : String
  conditionType : ConditionType
  operator : Operator
  threshold : ℚ
  triggered : Bool
  createdAt : ℚ
deriving DecidableEq, Repr

/-- The `switch (alert.conditionType)` of `evaluateAlert`: the field of
the current launch row named by the condition type.  A NULL column reads
as JS `null`, which coerces to 0 in the numeric comparisons below. -/
def currentValue (t : ConditionType) (r : LaunchRow) : ℚ :=
  match t with
  | .price => r.priceUsd.getD 0
  | .volume => r.volume24h.getD 0
  | .mcap => r.marketCap.getD 0

/-- `AlertChecker.evaluateAlert`: strict comparison for `>` and `<`;
for `=` a tolerance band `|current - threshold| <= threshold * 0.01`. -/
def evaluateAlert (a : Alert) (r : LaunchRow) : Bool :=
  match a.operator with
  | .gt => a.threshold < currentValue a.conditionType r
  | .lt => currentValue a.conditionType r < a.threshold
  | .eq => |currentValue a.conditionType r - a.threshold| ≤ a.threshold * 0.01

/-- Outcome of one notification delivery attempt in
`AlertChecker.triggerAlert`. -/
inductive DeliveryOutcome
  | delivered
  | userMissing
  | dmsClosed
  | sendFailed
deriving DecidableEq, Repr

/-- Classification of a thrown delivery error: Discord error code 50007
(cannot DM the user) versus anything else. -/
inductive DeliveryError
  | unreachable
  | other
deriving DecidableEq, Repr

/-- The body of the `try` block of `triggerAlert`: a missing user is an
early `return` (no error), closed DMs throw code 50007, any other
failure throws a different error. -/
def deliveryAttempt : DeliveryOutcome → Except DeliveryError Unit
  | .delivered => .ok ()
  | .userMissing => .ok ()
  | .dmsClosed => .error .unreachable
  | .sendFailed => .error .other

/-- `AlertChecker.triggerAlert`: the surrounding `catch` only logs
(distinguishing code 50007 from other errors) and rethrows nothing, so
the function returns normally on every outcome. -/
def triggerAlert (o : DeliveryOutcome) : Except DeliveryError Unit :=
  match deliveryAttempt o with
  | .ok u => .ok u
  | .error _ => .ok ()

/-- One iteration of the `for` loop of `AlertChecker.checkAlerts`: fetch
the launch by token (skip when absent), evaluate, and on a match await
`triggerAlert` and then unconditionally `markAlertTriggered`.  The
`.error` branch mirrors the per-alert `catch`, which would skip the
mark if `triggerAlert` rejected — it never does. -/
def processAlert (rows : List LaunchRow) (delivery : ℕ → DeliveryOutcome)
    (a : Alert) : Alert :=
  match getLaunchByToken rows a.tokenAddress with
  | none => a
  | some r =>
    if evaluateAlert a r then
      match triggerAlert (delivery a.id) with
      | .ok _ => { a with triggered := true }
      | .error _ => a
    else a

/-- `AlertChecker.checkAlerts` as a transformer of the alerts table:
`getActiveAlerts` selects the rows with `triggered = 0`, each is
processed, and `markAlertTriggered` flips the flag of the matched
ones. -/
def checkAlerts (rows : List LaunchRow) (delivery : ℕ → DeliveryOutcome)
    (alerts : List Alert) : List Alert :=
  alerts.map (fun a => if a.triggered then a else processAlert rows delivery a)

/-! ### C1: trigger marking versus delivery outcome -/

/-- C1 example launch row: price 2 for token `0xalerttok`. -/
def c1Row : LaunchRow :=
  { c2Row with
    tokenAddress := "0xalerttok"
    priceUsd := some 2 }

/-- C1 example alert: price > 1 on `0xalerttok`, not yet triggered. -/
def c1Alert : Alert :=
  { id := 7, userId := "u1", tokenAddress := "0xalerttok",
    conditionType := .price, operator := .gt, threshold := 1,
    triggered := false, createdAt := 0 }

/-- C1 counterexample: the alert matches and delivery fails with an
error that is not of the unreachable-recipient class (`sendFailed`),
yet the tick marks the alert triggered — the claim says it would be
left untriggered for retry. -/
theorem checkAlerts_other_failure_counterexample :
    evaluateAlert c1Alert c1Row = true ∧
    deliveryAttempt DeliveryOutcome.sendFailed = .error .other ∧
    checkAlerts [c1Row] (fun _ => DeliveryOutcome.sendFailed) [c1Alert] =
      [{ c1Alert with triggered := true }] := by
  refine ⟨by decide, rfl, by decide⟩

/-- C1 (amended): on any tick, an active alert whose condition matches
the current launch is marked triggered regardless of the delivery
outcome: `triggerAlert` swallows every delivery error (including the
unreachable-recipient class and any other failure), so the mark always
follows a match and the alert is never re-evaluated. -/
theorem checkAlerts_marks_triggered_on_match
    (rows : List LaunchRow) (delivery : ℕ → DeliveryOutcome)
    (alerts : List Alert) (a : Alert) (r : LaunchRow)
    (ha : a ∈ alerts) (hact : a.triggered = false)
    (hl : getLaunchByToken rows a.tokenAddress = some r)
    (hev : evaluateAlert a r = true) :
    { a with triggered := true } ∈ checkAlerts rows delivery alerts ∧
    (∀ o : DeliveryOutcome, triggerAlert o = .ok ()) := by
  have hproc : processAlert rows delivery a = { a with triggered := true } := by
    unfold processAlert
    rw [hl]
    dsimp only
    rw [if_pos hev]
    cases delivery a.id <;> rfl
  constructor
  · refine List.mem_map.mpr ⟨a, ha, ?_⟩
    rw [hact]
    simp only [Bool.false_eq_true, if_false]
    exact hproc
  · intro o
    cases o <;> rfl

/-- Witness for the amended C1: the matching alert `c1Alert` with the
non-unreachable delivery failure is marked triggered. -/
theorem checkAlerts_marks_triggered_on_match_witness :
    (c1Alert ∈ [c1Alert] ∧ c1Alert.triggered = false ∧
     getLaunchByToken [c1Row] c1Alert.tokenAddress = some c1Row ∧
     evaluateAlert c1Alert c1Row = true) ∧
    ({ c1Alert with triggered := true } ∈
      checkAlerts [c1Row] (fun _ => DeliveryOutcome.sendFailed) [c1Alert] ∧
     (∀ o : DeliveryOutcome, triggerAlert o = .ok ())) :=
  ⟨⟨List.mem_singleton.mpr rfl, rfl, by decide, by decide⟩,
   checkAlerts_marks_triggered_on_match [c1Row]
     (fun _ => DeliveryOutcome.sendFailed) [c1Alert] c1Alert c1Row
     (List.mem_singleton.mpr rfl) rfl (by decide) (by decide)⟩

/-! ### C4: the `=` operator tolerance band -/

/-- C4 example alert: price `=` 100. -/
def c4Alert : Alert :=
  { id := 9, userId := "u2", tokenAddress := "0xtok4",
    conditionType := .price, operator := .eq, threshold := 100,
    triggered := false, createdAt := 0 }

/-- C4 example row with price 100.9. -/
def c4Row1009 : LaunchRow :=
  { c2Row with
    tokenAddress := "0xtok4"
    priceUsd := some (1009 / 10) }

/-- C4 example row with price 102. -/
def c4Row102 : LaunchRow :=
  { c2Row with
    tokenAddress := "0xtok4"
    priceUsd := some 102 }

/-- C4: for an alert with operator `=` and threshold `t ≥ 0`, the
condition matches exactly when `|v - t| ≤ 0.01 * t` for the current
value `v` of the field named by the condition type; at `t = 0` it
matches only `v = 0`; and at price threshold 100 the value 100.9
matches while 102 does not. -/
theorem evaluateAlert_eq_band
    (a : Alert) (r : LaunchRow) (v : ℚ)
    (hop : a.operator = .eq) (ht : 0 ≤ a.threshold)
    (hv : currentValue a.conditionType r = v) :
    (evaluateAlert a r = true ↔ |v - a.threshold| ≤ 0.01 * a.threshold) ∧
    (a.threshold = 0 → (evaluateAlert a r = true ↔ v = 0)) ∧
    evaluateAlert c4Alert c4Row1009 = true ∧
    evaluateAlert c4Alert c4Row102 = false := by
  have hval : evaluateAlert a r =
      decide (|v - a.threshold| ≤ a.threshold * 0.01) := by
    unfold evaluateAlert
    rw [hop, hv]
  refine ⟨?_, ?_, ?_, ?_⟩
  · rw [hval]
    simp [mul_comm]
  · intro h0
    rw [hval, h0]
    simp only [mul_zero, zero_mul, sub_zero, decide_eq_true_eq, abs_nonpos_iff]
  · norm_num [evaluateAlert, currentValue, c4Alert, c4Row1009, c2Row, abs_le]
  · norm_num [evaluateAlert, currentValue, c4Alert, c4Row102, c2Row, abs_le]

/-- Witness for C4: the theorem applied to the concrete price-`=`-100
alert, whose current value against `c4Row1009` is 100.9. -/
theorem evaluateAlert_eq_band_witness :
    (c4Alert.operator = .eq ∧ (0 : ℚ) ≤ c4Alert.threshold ∧
     currentValue c4Alert.conditionType c4Row1009 = 1009 / 10) ∧
    ((evaluateAlert c4Alert c4Row1009 = true ↔
        |(1009 / 10 : ℚ) - c4Alert.threshold| ≤ 0.01 * c4Alert.threshold) ∧
     (c4Alert.threshold = 0 →
        (evaluateAlert c4Alert c4Row1009 = true ↔ (1009 / 10 : ℚ) = 0)) ∧
     evaluateAlert c4Alert c4Row1009 = true ∧
     evaluateAlert c4Alert c4Row102 = false) :=
  ⟨⟨rfl, by norm_num [c4Alert], rfl⟩,
   evaluateAlert_eq_band c4Alert c4Row1009 (1009 / 10) rfl
     (by norm_num [c4Alert]) rfl⟩

/-! ### DexScreener service (`src/services/dexscreener.ts`) -/

/-- JS regex word character `\w`, i.e. `[A-Za-z0-9_]`. -/
def isWordChar (c : Char) : Bool :=
  (Char.ofNat 97 ≤ c && c ≤ Char.ofNat 122) ||
  (Char.ofNat 65 ≤ c && c ≤ Char.ofNat 90) ||
  (Char.ofNat 48 ≤ c && c ≤ Char.ofNat 57) ||
  c = Char.ofNat 95

/-- JS regex whitespace class `\s` restricted to the ASCII whitespace
characters (space, tab, line feed, carriage return, vertical tab, form
feed). -/
def isJsSpace (c : Char) : Bool :=
  c = ' ' || c = Char.ofNat 9 || c = Char.ofNat 10 || c = Char.ofNat 13 ||
  c = Char.ofNat 11 || c = Char.ofNat 12

/-- `l` starts with the pattern word `w`. -/
def leadsWith : List Char → List Char → Bool
  | [], _ => true
  | _ :: _, [] => false
  | c :: cs, d :: ds => c = d && leadsWith cs ds

/-- The regex fragment `W\b` matches at the head of `l`: `l` starts with
`W` and the next character (if any) is not a word character. -/
def wordAt (w l : List Char) : Bool :=
  leadsWith w l &&
  (match l.drop w.length with
   | [] => true
   | c :: _ => !isWordChar c)

/-- Scan for `\bW\b`: at each position, the previous character (tracked
by `prevIsWord`) must not be a word character and `W\b` must match. -/
def hasWordFrom (w : List Char) : Bool → List Char → Bool
  | prevIsWord, [] => !prevIsWord && wordAt w []
  | prevIsWord, c :: rest =>
    (!prevIsWord && wordAt w (c :: rest)) || hasWordFrom w (isWordChar c) rest

/-- The regex `\bW\b` (case already normalized) matches somewhere in `l`. -/
def containsWord (w l : List Char) : Bool := hasWordFrom w false l

/-- The regex fragment `\s+W` matches at the head of `l`: at least one
whitespace character, then `W` (whose first character is not
whitespace, so backtracking reduces to skipping the maximal run). -/
def afterSpaces1 (w : List Char) : List Char → Bool
  | [] => false
  | c :: rest => isJsSpace c && leadsWith w (rest.dropWhile (fun d => isJsSpace d))

/-- The regex fragment `\s?W` matches at the head of `l`. -/
def optSpaceThen (w l : List Char) : Bool :=
  leadsWith w l ||
  (match l with
   | [] => false
   | c :: rest => isJsSpace c && leadsWith w rest)

/-- The regex fragment `^W\s` matches `l`. -/
def startsWithThenSpace (w l : List Char) : Bool :=
  leadsWith w l &&
  (match l.drop w.length with
   | [] => false
   | c :: _ => isJsSpace c)

/-- The `BLOCKED_SYMBOLS` set: wrapped tokens, Coinbase wrapped tokens,
other wrapped/bridged assets, stablecoins and major tokens. -/
def BLOCKED_SYMBOLS : List String :=
  ["WETH", "WBTC", "WSOL", "WMATIC", "WAVAX", "WBNB", "WFTM",
   "CBETH", "CBBTC", "CBTC", "CBLTC", "CBXRP", "CBSOL", "CBDOGE",
   "RETH", "STETH", "WSTETH", "TBTC", "RENBTC", "HBTC",
   "USDC", "USDT", "DAI", "BUSD", "TUSD", "USDP", "GUSD", "FRAX", "LUSD",
   "SUSD", "USDD", "USDBC", "EURC", "PYUSD",
   "ETH", "BTC", "SOL", "MATIC", "AVAX", "BNB", "FTM", "OP", "ARB", "LTC",
   "XRP", "DOGE", "ADA", "DOT",
   "LINK", "UNI", "AAVE", "CRV", "MKR", "SNX", "COMP", "SUSHI", "YFI", "BAL",
   "PEPE", "SHIB", "FLOKI", "BONK", "WIF", "BRETT", "TOSHI", "DEGEN"]

/-- The `BLOCKED_NAME_PATTERNS` tests applied to the token name, one
disjunct per regex in source order; the case-insensitive patterns run on
the lower-cased name, `^cb[A-Z]` on the original. -/
def blockedNamePattern (name : String) : Bool :=
  let lc := (strLower name).data
  startsWithThenSpace "wrapped".data lc ||
  startsWithThenSpace "bridged".data lc ||
  containsWord "wrapped".data lc ||
  (containsWord "bridge".data lc || containsWord "bridged".data lc) ||
  (leadsWith "coinbase".data lc && afterSpaces1 "wrapped".data (lc.drop 8)) ||
  (leadsWith "usd".data lc && optSpaceThen "coin".data (lc.drop 3)) ||
  leadsWith "tether".data lc ||
  (match name.data with
   | c :: b :: u :: _ =>
     c = Char.ofNat 99 && b = Char.ofNat 98 && (Char.ofNat 65 ≤ u && u ≤ Char.ofNat 90)
   | _ => false)

/-- The `baseToken` object of a `DexScreenerPair`. -/
structure BaseToken where
  address : String
  name : String
  symbol : String
deriving DecidableEq, Repr

/-- The fields of the `DexScreenerPair` interface read by the embedded
service functions; the optional object paths (`baseToken?`,
`volume?.h24`, `liquidity?.usd`, `priceChange?.h24`) are flattened to
`Option` fields. -/
structure DexPair where
  chainId : String
  dexId : String
  url : String
  pairAddress : String
  baseToken : Option BaseToken
  priceUsd : Option String
  volumeH24 : Option ℚ
  priceChangeH24 : Option ℚ
  liquidityUsd : Option ℚ
  fdv : Option ℚ
  marketCap : Option ℚ
  pairCreatedAt : Option ℚ
deriving DecidableEq, Repr

/-- The `config.filters` thresholds (loaded from environment variables,
defaults 1000 / 500 / 5). -/
structure FilterConfig where
  minLiquidityUsd : ℚ
  minVolumeUsd : ℚ
  minPairAgeMinutes : ℚ
deriving Repr

/-- `MAX_MCAP_FOR_NEW_LAUNCH`, the fixed 50,000,000 USD ceiling. -/
def MAX_MCAP_FOR_NEW_LAUNCH : ℚ := 50000000

/-- The predicate of `DexScreenerService.filterValidPairs`, rules in
source order.  JS truthiness notes: a missing or empty name/symbol is
falsy; `!pair.pairCreatedAt` is also true for timestamp 0; the numeric
reads use `|| 0` (see `jsOr`). -/
def validPair (cfg : FilterConfig) (now : ℚ) (p : DexPair) : Bool :=
  match p.baseToken with
  | none => false
  | some bt =>
    if bt.name = "" || bt.symbol = "" then false
    else if BLOCKED_SYMBOLS.contains (strUpper bt.symbol) then false
    else if blockedNamePattern bt.name then false
    else
      match p.pairCreatedAt with
      | none => false
      | some created =>
        if created = 0 then false
        else if now - created < cfg.minPairAgeMinutes * 60 * 1000 then false
        else if now - created > 7 * 24 * 60 * 60 * 1000 then false
        else if jsOr p.liquidityUsd 0 < cfg.minLiquidityUsd then false
        else if jsOr p.volumeH24 0 < cfg.minVolumeUsd then false
        else if jsOr p.marketCap (jsOr p.fdv 0) > MAX_MCAP_FOR_NEW_LAUNCH then false
        else true

/-- `DexScreenerService.filterValidPairs`. -/
def filterValidPairs (cfg : FilterConfig) (now : ℚ) (pairs : List DexPair) :
    List DexPair :=
  pairs.filter (validPair cfg now)

/-- A surviving pair passed the liquidity floor and the market-cap
ceiling, whatever its other fields. -/
theorem validPair_thresholds (cfg : FilterConfig) (now : ℚ) (p : DexPair)
    (h : validPair cfg now p = true) :
    cfg.minLiquidityUsd ≤ jsOr p.liquidityUsd 0 ∧
    jsOr p.marketCap (jsOr p.fdv 0) ≤ MAX_MCAP_FOR_NEW_LAUNCH := by
  unfold validPair at h
  split at h
  · exact absurd h (by simp)
  · split at h
    · exact absurd h (by simp)
    · split at h
      · exact absurd h (by simp)
      · split at h
        · exact absurd h (by simp)
        · split at h
          · exact absurd h (by simp)
          · split at h
            · exact absurd h (by simp)
            · split at h
              · exact absurd h (by simp)
              · split at h
                · exact absurd h (by simp)
                · split at h
                  · exact absurd h (by simp)
                  · split at h
                    · exact absurd h (by simp)
                    · split at h
                      · exact absurd h (by simp)
                      · exact ⟨le_of_not_lt
                          ‹¬ jsOr p.liquidityUsd 0 < cfg.minLiquidityUsd›,
                          le_of_not_lt ‹¬ jsOr p.marketCap (jsOr p.fdv 0) >
                            MAX_MCAP_FOR_NEW_LAUNCH›⟩

/-- C6: a candidate whose (JS-coerced) liquidity USD is below the
configured floor is absent from the classifier output regardless of its
other fields, and a candidate whose market cap — or fully-diluted value
when the cap is absent (or zero, per JS `||`) — exceeds the fixed
50,000,000 USD ceiling is absent regardless of its other fields. -/
theorem filterValidPairs_floor_and_ceiling
    (cfg : FilterConfig) (now : ℚ) (pairs : List DexPair) (p : DexPair) :
    (jsOr p.liquidityUsd 0 < cfg.minLiquidityUsd →
      p ∉ filterValidPairs cfg now pairs) ∧
    (MAX_MCAP_FOR_NEW_LAUNCH < jsOr p.marketCap (jsOr p.fdv 0) →
      p ∉ filterValidPairs cfg now pairs) := by
  constructor
  · intro hliq hmem
    have hv : validPair cfg now p = true :=
      List.of_mem_filter (by exact hmem)
    exact absurd hliq (not_lt_of_le (validPair_thresholds cfg now p hv).1)
  · intro hmcap hmem
    have hv : validPair cfg now p = true :=
      List.of_mem_filter (by exact hmem)
    exact absurd hmcap (not_lt_of_le (validPair_thresholds cfg now p hv).2)

/-- C6 witness configuration: the default thresholds. -/
def c6Config : FilterConfig :=
  { minLiquidityUsd := 1000, minVolumeUsd := 500, minPairAgeMinutes := 5 }

/-- C6 witness pair: passes every rule except the liquidity floor. -/
def c6LowLiquidity : DexPair :=
  { chainId := "base", dexId := "uniswap",
    url := "https://dexscreener.com/base/0xp6", pairAddress := "0xp6",
    baseToken := some { address := "0xb6", name := "Moon Cat", symbol := "MCAT" },
    priceUsd := some "0.5", volumeH24 := some 900,
    priceChangeH24 := some 10, liquidityUsd := some 400, fdv := some 100000,
    marketCap := some 100000, pairCreatedAt := some 199000000 }

/-- C6 witness pair: passes every rule except the market-cap ceiling. -/
def c6BigMcap : DexPair :=
  { c6LowLiquidity with
    pairAddress := "0xp7"
    liquidityUsd := some 5000
    marketCap := some 60000000 }

/-- Witness for C6: the low-liquidity pair and the over-cap pair are
outside the filter output for the default configuration. -/
theorem filterValidPairs_floor_and_ceiling_witness :
    (jsOr c6LowLiquidity.liquidityUsd 0 < c6Config.minLiquidityUsd ∧
     MAX_MCAP_FOR_NEW_LAUNCH < jsOr c6BigMcap.marketCap (jsOr c6BigMcap.fdv 0)) ∧
    (c6LowLiquidity ∉
       filterValidPairs c6Config 200000000 [c6LowLiquidity, c6BigMcap] ∧
     c6BigMcap ∉
       filterValidPairs c6Config 200000000 [c6LowLiquidity, c6BigMcap]) :=
  ⟨⟨by decide, by decide⟩,
   (filterValidPairs_floor_and_ceiling c6Config 200000000
      [c6LowLiquidity, c6BigMcap] c6LowLiquidity).1 (by decide),
   (filterValidPairs_floor_and_ceiling c6Config 200000000
      [c6LowLiquidity, c6BigMcap] c6BigMcap).2 (by decide)⟩

/-! ### C9: discovery fan-out deduplication -/

/-- The deduplication key of `fetchBasePairs`:
`pair.pairAddress.toLowerCase()`. -/
def pairKey (p : DexPair) : String := strLower p.pairAddress

/-- The `addPairs` closure of `fetchBasePairs` run over a candidate
list: a pair whose lower-cased pool address is already in
`seenAddresses` is dropped, otherwise it is appended and its address
recorded. -/
def addPairs (seen : List String) : List DexPair → List DexPair
  | [] => []
  | p :: rest =>
    if pairKey p ∈ seen then addPairs seen rest
    else p :: addPairs (pairKey p :: seen) rest

/-- The contribution of one discovery strategy: the pair list it passes
to `addPairs` (for strategy 4 this is the chain-filtered search result,
one entry per search term), or nothing when the strategy failed (each
strategy body is wrapped in a `try`/`catch` that only logs). -/
def strategyPairs : Except String (List DexPair) → List DexPair
  | .ok ps => ps
  | .error _ => []

/-- `DexScreenerService.fetchBasePairs` as an aggregation over the
strategy outcomes in order: concatenate each strategy's contribution
and deduplicate with `addPairs`. -/
def fetchBasePairs (strategies : List (Except String (List DexPair))) :
    List DexPair :=
  addPairs [] (strategies.map strategyPairs).flatten

/-- Keys of the deduplicated output are distinct enough: no key occurs
twice, and no key was in the initial seen set. -/
theorem addPairs_key_nodup (l : List DexPair) :
    ∀ seen : List String,
      ((addPairs seen l).map pairKey).Nodup ∧
      ∀ p ∈ addPairs seen l, pairKey p ∉ seen := by
  induction l with
  | nil => intro seen; simp [addPairs]
  | cons a rest ih =>
    intro seen
    simp only [addPairs]
    by_cases ha : pairKey a ∈ seen
    · rw [if_pos ha]
      exact ih seen
    · rw [if_neg ha]
      refine ⟨?_, ?_⟩
      · rw [List.map_cons, List.nodup_cons]
        refine ⟨?_, (ih (pairKey a :: seen)).1⟩
        intro hx
        obtain ⟨p, hp, hkey⟩ := List.mem_map.mp hx
        exact (ih (pairKey a :: seen)).2 p hp (hkey ▸ List.mem_cons_self _ _)
      · intro p hp
        rcases List.mem_cons.mp hp with rfl | hp'
        · exact ha
        · intro hx
          exact (ih (pairKey a :: seen)).2 p hp' (List.mem_cons_of_mem _ hx)

/-- Membership in the deduplicated output characterized: exactly the
pairs that are the first occurrence of their lower-cased pool address
in the candidate list (and whose address is not initially seen). -/
theorem mem_addPairs_iff (p : DexPair) (l : List DexPair) :
    ∀ seen : List String,
      (p ∈ addPairs seen l ↔
        pairKey p ∉ seen ∧
        ∃ l1 l2, l = l1 ++ p :: l2 ∧
          ∀ q ∈ l1, pairKey q ≠ pairKey p) := by
  induction l with
  | nil =>
    intro seen
    simp [addPairs]
  | cons a rest ih =>
    intro seen
    simp only [addPairs]
    by_cases ha : pairKey a ∈ seen
    · rw [if_pos ha, ih seen]
      constructor
      · rintro ⟨hns, l1, l2, heq, hl1⟩
        refine ⟨hns, a :: l1, l2, by rw [heq, List.cons_append], ?_⟩
        intro q hq
        rcases List.mem_cons.mp hq with rfl | hq'
        · intro hk
          exact hns (hk ▸ ha)
        · exact hl1 q hq'
      · rintro ⟨hns, l1, l2, heq, hl1⟩
        refine ⟨hns, ?_⟩
        cases l1 with
        | nil =>
          simp only [List.nil_append, List.cons.injEq] at heq
          obtain ⟨rfl, rfl⟩ := heq
          exact absurd ha hns
        | cons b l1' =>
          simp only [List.cons_append, List.cons.injEq] at heq
          obtain ⟨rfl, heq'⟩ := heq
          exact ⟨l1', l2, heq', fun q hq => hl1 q (List.mem_cons_of_mem _ hq)⟩
    · rw [if_neg ha]
      constructor
      · intro hmem
        rcases List.mem_cons.mp hmem with rfl | hmem'
        · exact ⟨ha, [], rest, rfl, by simp⟩
        · obtain ⟨hns, l1, l2, heq, hl1⟩ := (ih (pairKey a :: seen)).mp hmem'
          have hnseen : pairKey p ∉ seen := fun hx =>
            hns (List.mem_cons_of_mem _ hx)
          have hne : pairKey a ≠ pairKey p := fun hk =>
            hns (hk ▸ List.mem_cons_self _ _)
          refine ⟨hnseen, a :: l1, l2, by rw [heq, List.cons_append], ?_⟩
          intro q hq
          rcases List.mem_cons.mp hq with rfl | hq'
          · exact hne
          · exact hl1 q hq'
      · rintro ⟨hns, l1, l2, heq, hl1⟩
        cases l1 with
        | nil =>
          simp only [List.nil_append, List.cons.injEq] at heq
          obtain ⟨rfl, rfl⟩ := heq
          exact List.mem_cons_self _ _
        | cons b l1' =>
          simp only [List.cons_append, List.cons.injEq] at heq
          obtain ⟨rfl, heq'⟩ := heq
          refine List.mem_cons_of_mem _ ?_
          refine (ih (pairKey a :: seen)).mpr
            ⟨?_, l1', l2, heq', fun q hq => hl1 q (List.mem_cons_of_mem _ hq)⟩
          intro hx
          rcases List.mem_cons.mp hx with hk | hk
          · exact hl1 a (List.mem_cons_self _ _) hk.symm
          · exact hns hk

/-- C9 example pair for the dedup demonstration. -/
def c9PairA : DexPair :=
  { c6LowLiquidity with
    pairAddress := "0xAbCd"
    dexId := "uniswap" }

/-- C9 example pair: the same pool address in a different letter case,
reported by a second strategy. -/
def c9PairB : DexPair :=
  { c6LowLiquidity with
    pairAddress := "0xabcd"
    dexId := "aerodrome" }

/-- C9: within one aggregation run, each lower-cased pool address occurs
at most once in the candidate output; a pair is in the output exactly
when it is the first occurrence of its lower-cased address in the
concatenation of the strategy contributions (so on a duplicate the
strategy-order-first `Pair` is retained); and two strategies reporting
the same pool address yield exactly one candidate. -/
theorem fetchBasePairs_dedup :
    (∀ strategies : List (Except String (List DexPair)),
      ((fetchBasePairs strategies).map pairKey).Nodup) ∧
    (∀ (strategies : List (Except String (List DexPair))) (p : DexPair),
      p ∈ fetchBasePairs strategies ↔
        ∃ l1 l2, (strategies.map strategyPairs).flatten = l1 ++ p :: l2 ∧
          ∀ q ∈ l1, pairKey q ≠ pairKey p) ∧
    fetchBasePairs [Except.ok [c9PairA], Except.ok [c9PairB]] = [c9PairA] := by
  refine ⟨?_, ?_, ?_⟩
  · intro strategies
    exact (addPairs_key_nodup _ []).1
  · intro strategies p
    rw [fetchBasePairs, mem_addPairs_iff]
    simp
  · decide

/-! ### Retrying client (`DexScreenerService.retryWithBackoff`) -/

/-- Observable result of a `retryWithBackoff` run: the surfaced outcome
(`Except.error` carries the last stored error, `none` when no attempt
ever ran), the backoff sleeps performed (in ms, in order), and how many
times the wrapped function was invoked. -/
structure RetryResult (E α : Type) where
  outcome : Except (Option E) α
  waits : List ℕ
  attemptsUsed : ℕ
deriving Repr

/-- The `for (attempt = 0; attempt < maxRetries; attempt++)` loop of
`retryWithBackoff`, with the remaining iteration count
`fuel = maxRetries - attempt` explicit so the recursion is structural.
A failure sleeps `2 ^ attempt * 1000` ms only when another attempt
follows (`attempt < maxRetries - 1`, i.e. `0 < fuel`); when the fuel is
exhausted the last stored error is thrown. -/
def retryAux (f : ℕ → Except E α) : ℕ → ℕ → Option E → RetryResult E α
  | 0, attempt, last => ⟨.error last, [], attempt⟩
  | fuel + 1, attempt, last =>
    match f attempt with
    | .ok a => ⟨.ok a, [], attempt + 1⟩
    | .error e =>
      let rest := retryAux f fuel (attempt + 1) (some e)
      ⟨rest.outcome,
       (if 0 < fuel then [2 ^ attempt * 1000] else []) ++ rest.waits,
       rest.attemptsUsed⟩

/-- `DexScreenerService.retryWithBackoff`, with the wrapped request
abstracted as the outcome `f n` of attempt number `n`. -/
def retryWithBackoff (f : ℕ → Except E α) (maxRetries : ℕ) :
    RetryResult E α :=
  retryAux f maxRetries 0 none

/-- The loop body runs at most `fuel` more times. -/
theorem retryAux_attempts_le (f : ℕ → Except E α) :
    ∀ (fuel attempt : ℕ) (last : Option E),
      (retryAux f fuel attempt last).attemptsUsed ≤ attempt + fuel := by
  intro fuel
  induction fuel with
  | zero => intro attempt last; simp [retryAux]
  | succ m ih =>
    intro attempt last
    simp only [retryAux]
    cases hf : f attempt with
    | ok a => dsimp only; omega
    | error e =>
      have h := ih (attempt + 1) (some e)
      dsimp only
      omega

/-- A first success at attempt `n` (after failures on the earlier
attempts) stops the loop: the success is returned, the loop slept
`2 ^ k * 1000` ms after each failed attempt `k < n`, and exactly
`n + 1` attempts ran. -/
theorem retryAux_success (f : ℕ → Except E α) (n : ℕ) (a : α)
    (hn : f n = .ok a) :
    ∀ (fuel attempt : ℕ) (last : Option E),
      attempt ≤ n → n < attempt + fuel →
      (∀ k, attempt ≤ k → k < n → ∃ e, f k = .error e) →
      retryAux f fuel attempt last =
        ⟨.ok a, (List.range' attempt (n - attempt)).map (fun k => 2 ^ k * 1000),
         n + 1⟩ := by
  intro fuel
  induction fuel with
  | zero => intro attempt last h1 h2 h3; omega
  | succ m ih =>
    intro attempt last h1 h2 h3
    rcases Nat.eq_or_lt_of_le h1 with rfl | hlt
    · simp [retryAux, hn]
    · obtain ⟨e, he⟩ := h3 attempt le_rfl hlt
      have hfuel : 0 < m := by omega
      simp only [retryAux, he]
      rw [ih (attempt + 1) (some e) hlt (by omega)
        (fun k hk1 hk2 => h3 k (by omega) hk2)]
      have hsplit : n - attempt = (n - (attempt + 1)) + 1 := by omega
      rw [hsplit, List.range'_succ]
      simp [if_pos hfuel]

/-- When every attempt in the window fails, the loop surfaces the error
of the last attempt, slept after each attempt but the last, and ran
`fuel` times. -/
theorem retryAux_exhaust (f : ℕ → Except E α) (e : ℕ → E) :
    ∀ (fuel attempt : ℕ) (last : Option E),
      (∀ k, attempt ≤ k → k < attempt + fuel → f k = .error (e k)) →
      retryAux f fuel attempt last =
        ⟨.error (if fuel = 0 then last else some (e (attempt + fuel - 1))),
         (List.range' attempt (fuel - 1)).map (fun k => 2 ^ k * 1000),
         attempt + fuel⟩ := by
  intro fuel
  induction fuel with
  | zero => intro attempt last _; simp [retryAux]
  | succ m ih =>
    intro attempt last h
    have he : f attempt = .error (e attempt) := h attempt le_rfl (by omega)
    simp only [retryAux, he]
    rw [ih (attempt + 1) (some (e attempt))
      (fun k hk1 hk2 => h k (by omega) (by omega))]
    cases m with
    | zero => simp
    | succ m' =>
      simp only [RetryResult.mk.injEq]
      refine ⟨?_, ?_, ?_⟩
      · have h1 : attempt + 1 + (m' + 1) - 1 = attempt + (m' + 1 + 1) - 1 := by
          omega
        rw [h1]
        simp
      · have h2 : m' + 1 + 1 - 1 = m' + 1 := by omega
        have h3 : m' + 1 - 1 = m' := by omega
        rw [h2, h3, List.range'_succ]
        simp
      · omega

/-- C7: the wrapped operation runs at most `maxRetries` times; the first
successful attempt's result is returned, with a sleep of `2 ^ k * 1000`
ms after each failed attempt `k` that precedes another attempt; and when
every attempt fails the error of the last attempt is surfaced. -/
theorem retryWithBackoff_spec {E α : Type} (f : ℕ → Except E α) (m : ℕ) :
    ((retryWithBackoff f m).attemptsUsed ≤ m) ∧
    (∀ (n : ℕ) (a : α), n < m → f n = .ok a →
      (∀ k, k < n → ∃ e, f k = .error e) →
      retryWithBackoff f m =
        ⟨.ok a, (List.range n).map (fun k => 2 ^ k * 1000), n + 1⟩) ∧
    (∀ e : ℕ → E, 0 < m → (∀ k, k < m → f k = .error (e k)) →
      retryWithBackoff f m =
        ⟨.error (some (e (m - 1))),
         (List.range (m - 1)).map (fun k => 2 ^ k * 1000), m⟩) := by
  refine ⟨?_, ?_, ?_⟩
  · have h := retryAux_attempts_le f m 0 none
    simpa [retryWithBackoff] using h
  · intro n a hn hok hprev
    have h := retryAux_success f n a hok m 0 none (Nat.zero_le n) (by omega)
      (fun k _ hk2 => hprev k hk2)
    simpa [retryWithBackoff, List.range_eq_range'] using h
  · intro e hm hfail
    have h := retryAux_exhaust f e m 0 none (fun k _ hk2 => hfail k (by omega))
    rw [retryWithBackoff, h]
    simp only [List.range_eq_range', Nat.zero_add]
    rw [if_neg (by omega)]

/-- C7 witness attempt function: failures on attempts 0 and 1, success
on attempt 2. -/
def c7f : ℕ → Except String ℕ
  | 0 => .error "boom0"
  | 1 => .error "boom1"
  | _ => .ok 42

/-- Witness for C7: with the default `maxRetries = 3` and `c7f`, the
call returns 42 after backoffs of 1000 ms and 2000 ms (3000 ms in
total) over 3 attempts. -/
theorem retryWithBackoff_spec_witness :
    ((2 : ℕ) < 3 ∧ c7f 2 = .ok 42 ∧ (∀ k, k < 2 → ∃ e, c7f k = .error e)) ∧
    (retryWithBackoff c7f 3 = ⟨.ok 42, [1000, 2000], 3⟩ ∧
     (retryWithBackoff c7f 3).waits.sum = 1000 + 2000) := by
  have hprev : ∀ k, k < 2 → ∃ e, c7f k = .error e := by
    intro k hk
    match k, hk with
    | 0, _ => exact ⟨"boom0", rfl⟩
    | 1, _ => exact ⟨"boom1", rfl⟩
  have h := (retryWithBackoff_spec c7f 3).2.1 2 42 (by omega) rfl hprev
  refine ⟨⟨by omega, rfl, hprev⟩, ?_, ?_⟩
  · rw [h]
    have hr : List.map (fun k => 2 ^ k * 1000) (List.range 2) = [1000, 2000] := by
      decide
    rw [hr]
  · rw [h]
    decide

/-! ### C8: single-pair lookup, 404 versus retryable errors -/

/-- Upstream response of one `GET /latest/dex/pairs/base/...` request:
a payload (whose `pairs` array may be absent), an HTTP 404, or a
network/server error. -/
inductive UpstreamResult (E : Type)
  | payload (ps : Option (List DexPair))
  | notFound404
  | netError (e : E)

/-- `response.data.pairs?.[0] || null`. -/
def firstPair : Option (List DexPair) → Option DexPair
  | none => none
  | some ps => ps.head?

/-- The function `fetchPairByAddress` passes to `retryWithBackoff`: the
inner `try`/`catch` turns a 404 status into a normal `null` result and
rethrows any other error, which the retry loop then catches. -/
def fetchPairAttempt (upstream : ℕ → UpstreamResult E) (n : ℕ) :
    Except E (Option DexPair) :=
  match upstream n with
  | .payload ps => .ok (firstPair ps)
  | .notFound404 => .ok none
  | .netError e => .error e

/-- `DexScreenerService.fetchPairByAddress`, abstracted over the
upstream response per attempt. -/
def fetchPairByAddress (upstream : ℕ → UpstreamResult E) (maxRetries : ℕ) :
    RetryResult E (Option DexPair) :=
  retryWithBackoff (fetchPairAttempt upstream) maxRetries

/-- C8: a 404 on the first attempt is returned as a normal empty result
(`null`) after exactly one attempt with no backoff; a network error on
the first attempt is rethrown from the attempt, so the loop sleeps
1000 ms and retries, returning the second attempt's payload; and when
every attempt fails with a network error, the last error is surfaced
after the full retry budget. -/
theorem fetchPairByAddress_notFound_vs_error {E : Type} :
    (∀ (upstream : ℕ → UpstreamResult E) (m : ℕ), 0 < m →
      upstream 0 = .notFound404 →
      fetchPairByAddress upstream m = ⟨.ok none, [], 1⟩) ∧
    (∀ (upstream : ℕ → UpstreamResult E) (e : E)
        (ps : Option (List DexPair)) (m : ℕ),
      2 ≤ m → upstream 0 = .netError e → upstream 1 = .payload ps →
      fetchPairByAddress upstream m = ⟨.ok (firstPair ps), [1000], 2⟩) ∧
    (∀ (upstream : ℕ → UpstreamResult E) (e : ℕ → E) (m : ℕ), 0 < m →
      (∀ k, k < m → upstream k = .netError (e k)) →
      (fetchPairByAddress upstream m).outcome = .error (some (e (m - 1)))) := by
  refine ⟨?_, ?_, ?_⟩
  · intro upstream m hm h0
    have hok : fetchPairAttempt upstream 0 = .ok none := by
      rw [fetchPairAttempt, h0]
    have h := retryAux_success (fetchPairAttempt upstream) 0 none hok m 0 none
      le_rfl (by omega) (fun k hk1 hk2 => absurd hk2 (by omega))
    simpa [fetchPairByAddress, retryWithBackoff] using h
  · intro upstream e ps m hm h0 h1
    have hok : fetchPairAttempt upstream 1 = .ok (firstPair ps) := by
      rw [fetchPairAttempt, h1]
    have herr : fetchPairAttempt upstream 0 = .error e := by
      rw [fetchPairAttempt, h0]
    have h := retryAux_success (fetchPairAttempt upstream) 1 (firstPair ps)
      hok m 0 none (by omega) (by omega)
      (fun k hk1 hk2 => by
        have hk0 : k = 0 := by omega
        exact ⟨e, hk0 ▸ herr⟩)
    rw [fetchPairByAddress, retryWithBackoff, h]
    rfl
  · intro upstream e m hm hfail
    have herr : ∀ k, 0 ≤ k → k < 0 + m →
        fetchPairAttempt upstream k = .error (e k) := by
      intro k _ hk
      rw [fetchPairAttempt, hfail k (by omega)]
    have h := retryAux_exhaust (fetchPairAttempt upstream) e m 0 none herr
    rw [fetchPairByAddress, retryWithBackoff, h]
    simp only [Nat.zero_add]
    rw [if_neg (by omega)]

/-- C8 witness pair returned by the second attempt. -/
def c8Pair : DexPair :=
  { c6LowLiquidity with
    pairAddress := "0xc8" }

/-- C8 witness upstream: always 404. -/
def c8u404 : ℕ → UpstreamResult String := fun _ => .notFound404

/-- C8 witness upstream: network error then a payload. -/
def c8u2 : ℕ → UpstreamResult String
  | 0 => .netError "socket hang up"
  | _ => .payload (some [c8Pair])

/-- C8 witness upstream: always a network error. -/
def c8uDown : ℕ → UpstreamResult String := fun _ => .netError "ECONNREFUSED"

/-- Witness for C8 at `maxRetries = 3`: the 404 lookup returns `null`
in one attempt without backoff, the transient failure is retried after
1000 ms and yields the pair, and the permanent failure surfaces the
last error. -/
theorem fetchPairByAddress_notFound_vs_error_witness :
    ((0 : ℕ) < 3 ∧ c8u404 0 = .notFound404 ∧ (2 : ℕ) ≤ 3 ∧
     c8u2 0 = .netError "socket hang up" ∧ c8u2 1 = .payload (some [c8Pair]) ∧
     (∀ k, k < 3 → c8uDown k = .netError "ECONNREFUSED")) ∧
    (fetchPairByAddress c8u404 3 = ⟨.ok none, [], 1⟩ ∧
     fetchPairByAddress c8u2 3 = ⟨.ok (some c8Pair), [1000], 2⟩ ∧
     (fetchPairByAddress c8uDown 3).outcome = .error (some "ECONNREFUSED")) := by
  refine ⟨⟨by omega, rfl, by omega, rfl, rfl, fun k _ => rfl⟩, ?_, ?_, ?_⟩
  · exact fetchPairByAddress_notFound_vs_error.1 c8u404 3 (by omega) rfl
  · exact fetchPairByAddress_notFound_vs_error.2.1 c8u2 "socket hang up"
      (some [c8Pair]) 3 (by omega) rfl rfl
  · exact fetchPairByAddress_notFound_vs_error.2.2 c8uDown
      (fun _ => "ECONNREFUSED") 3 (by omega) (fun k _ => rfl)

/-! ### C10: the `!alert` command condition parser
(`src/discord/commands/alert.ts`) -/

/-- The `ParsedCondition` interface. -/
structure ParsedCondition where
  type : ConditionType
  operator : Operator
  threshold : ℚ
deriving DecidableEq, Repr

/-- The regex digit class `\d`. -/
def isDigit (c : Char) : Bool := decide (Char.ofNat 48 ≤ c) && decide (c ≤ Char.ofNat 57)

/-- The anchored number fragment `(\d+\.?\d*)$`: one or more digits, an
optional dot, then only digits to the end (backtracking inside the
fragment does not change acceptance). -/
def numberMatches (l : List Char) : Bool :=
  match l with
  | [] => false
  | c :: _ =>
    isDigit c &&
    (match l.dropWhile isDigit with
     | [] => true
     | d :: rest => decide (d = Char.ofNat 46) && rest.all isDigit)

/-- Numeric value of a digit character. -/
def digitVal (c : Char) : ℕ := c.toNat - 48

/-- Value of the integer digit run. -/
def natOfDigits (l : List Char) : ℕ :=
  l.foldl (fun acc c => acc * 10 + digitVal c) 0

/-- Value of the fractional digit run. -/
def fracOfDigits (l : List Char) : ℚ :=
  l.foldr (fun c acc => ((digitVal c : ℚ) + acc) / 10) 0

/-- JS `parseFloat` on a text that matched `\d+\.?\d*`. -/
def parseFloatQ (l : List Char) : ℚ :=
  (natOfDigits (l.takeWhile isDigit) : ℚ) +
  (match l.dropWhile isDigit with
   | c :: frac => if c = Char.ofNat 46 then fracOfDigits frac else 0
   | [] => 0)

/-- The optional `=` of the operator fragment `[><]=?`: the number
fragment cannot start with `=`, so a greedy consume is equivalent to
the backtracking regex. -/
def stripEq : List Char → List Char
  | d :: rest => if d = Char.ofNat 61 then rest else d :: rest
  | [] => []

/-- The tail of a successful regex match: validate the number text and
build the condition.  `parseFloat` of a `\d+\.?\d*` match is never NaN,
and the `threshold < 0` guard of `parseCondition` can never fire on an
unsigned literal, but both tests are kept from the source. -/
def mkCondition (t : ConditionType) (op : Operator) (numPart : List Char) :
    Option ParsedCondition :=
  if numberMatches numPart then
    if parseFloatQ numPart < 0 then none
    else some ⟨t, op, parseFloatQ numPart⟩
  else none

/-- The operator fragment `[><]=?` and the switch on `match[2]`: `>` and
`>=` become `>`, `<` and `<=` become `<`; a bare `=` cannot match the
character class, so the `case '='` of the source switch is dead code. -/
def parseOpAndNumber (t : ConditionType) : List Char → Option ParsedCondition
  | [] => none
  | c :: rest =>
    if c = Char.ofNat 62 then mkCondition t .gt (stripEq rest)
    else if c = Char.ofNat 60 then mkCondition t .lt (stripEq rest)
    else none

/-- The keyword alternation `(price|mcap|vol|volume|marketcap)` in
source order, with the condition type each keyword maps to. -/
def KEYWORDS : List (String × ConditionType) :=
  [("price", .price), ("mcap", .mcap), ("vol", .volume),
   ("volume", .volume), ("marketcap", .mcap)]

/-- Regex alternation with backtracking: the first keyword that is a
prefix of the cleaned input and whose continuation also matches wins. -/
def tryKeywords : List (String × ConditionType) → List Char →
    Option ParsedCondition
  | [], _ => none
  | (kw, t) :: rest, cleaned =>
    match (if leadsWith kw.data cleaned
           then parseOpAndNumber t (cleaned.drop kw.data.length)
           else none) with
    | some c => some c
    | none => tryKeywords rest cleaned

/-- `parseCondition`: strip whitespace (`replace(/\s/g, '')`), lower
case, then match the anchored regex. -/
def parseCondition (input : String) : Option ParsedCondition :=
  tryKeywords KEYWORDS
    ((input.data.filter (fun c => !isJsSpace c)).map Char.toLower)

/-- `isValidAddress`: the regex `^0x[a-fA-F0-9]{40}$`. -/
def isValidAddress (address : String) : Bool :=
  match address.data with
  | c0 :: c1 :: rest =>
    decide (c0 = Char.ofNat 48) && decide (c1 = Char.ofNat 120) &&
    decide (rest.length = 40) &&
    rest.all (fun c => isDigit c ||
      (decide (Char.ofNat 97 ≤ c) && decide (c ≤ Char.ofNat 102)) ||
      (decide (Char.ofNat 65 ≤ c) && decide (c ≤ Char.ofNat 70)))
  | _ => false

/-- The `createAlert` command path: `store.createAlert` runs only when
the address validates and the condition parses; the stored row takes the
parsed fields, the lower-cased token address, and `triggered = 0`. -/
def createAlertCmd (userId tokenAddress conditionStr : String)
    (id : ℕ) (now : ℚ) : Option Alert :=
  if isValidAddress tokenAddress then
    (parseCondition conditionStr).map (fun c =>
      { id := id, userId := userId, tokenAddress := strLower tokenAddress,
        conditionType := c.type, operator := c.operator,
        threshold := c.threshold, triggered := false, createdAt := now })
  else none

/-- A built condition carries the operator it was built with, a
non-negative threshold, and the requested type. -/
theorem mkCondition_some (t : ConditionType) (op : Operator)
    (numPart : List Char) (cond : ParsedCondition)
    (h : mkCondition t op numPart = some cond) :
    cond.operator = op ∧ 0 ≤ cond.threshold ∧ cond.type = t := by
  unfold mkCondition at h
  split at h
  · split at h
    · exact absurd h (by simp)
    · obtain rfl := Option.some.inj h
      exact ⟨rfl, le_of_not_lt (by assumption), rfl⟩
  · exact absurd h (by simp)

/-- A parsed operator fragment yields `>` or `<`, never `=`. -/
theorem parseOpAndNumber_some (t : ConditionType) (l : List Char)
    (cond : ParsedCondition) (h : parseOpAndNumber t l = some cond) :
    (cond.operator = .gt ∨ cond.operator = .lt) ∧ 0 ≤ cond.threshold := by
  cases l with
  | nil => exact absurd h (by simp [parseOpAndNumber])
  | cons c rest =>
    simp only [parseOpAndNumber] at h
    by_cases h62 : c = Char.ofNat 62
    · rw [if_pos h62] at h
      obtain ⟨h1, h2, _⟩ := mkCondition_some _ _ _ _ h
      exact ⟨Or.inl h1, h2⟩
    · rw [if_neg h62] at h
      by_cases h60 : c = Char.ofNat 60
      · rw [if_pos h60] at h
        obtain ⟨h1, h2, _⟩ := mkCondition_some _ _ _ _ h
        exact ⟨Or.inr h1, h2⟩
      · rw [if_neg h60] at h
        exact absurd h (by simp)

/-- The alternation preserves the per-keyword guarantees. -/
theorem tryKeywords_some (kws : List (String × ConditionType))
    (cleaned : List Char) (cond : ParsedCondition)
    (h : tryKeywords kws cleaned = some cond) :
    (cond.operator = .gt ∨ cond.operator = .lt) ∧ 0 ≤ cond.threshold := by
  induction kws with
  | nil => exact absurd h (by simp [tryKeywords])
  | cons kw rest ih =>
    obtain ⟨kwText, t⟩ := kw
    unfold tryKeywords at h
    split at h
    · rename_i c hc
      obtain rfl := Option.some.inj h
      split at hc
      · exact parseOpAndNumber_some _ _ _ hc
      · exact absurd hc (by simp)
    · exact ih h

/-- C10: every condition accepted by the `!alert` parser, and hence
every alert created through the command boundary, has operator `>` or
`<` (never `=`) and a non-negative threshold: the regex class `[><]=?`
rejects a bare `=`, `>=` is rewritten to `>` and `<=` to `<`, and only
unsigned decimal thresholds are accepted. -/
theorem createAlertCmd_no_eq_operator :
    (∀ (input : String) (cond : ParsedCondition),
      parseCondition input = some cond →
      (cond.operator = .gt ∨ cond.operator = .lt) ∧ cond.operator ≠ .eq ∧
      0 ≤ cond.threshold) ∧
    (∀ (u ta cs : String) (id : ℕ) (now : ℚ) (a : Alert),
      createAlertCmd u ta cs id now = some a →
      (a.operator = .gt ∨ a.operator = .lt) ∧ a.operator ≠ .eq ∧
      0 ≤ a.threshold) ∧
    (parseCondition "price>=5").map ParsedCondition.operator = some .gt ∧
    (parseCondition "vol<=10").map ParsedCondition.operator = some .lt ∧
    parseCondition "price=5" = none ∧
    parseCondition "mcap>-5" = none := by
  have hparse : ∀ (input : String) (cond : ParsedCondition),
      parseCondition input = some cond →
      (cond.operator = .gt ∨ cond.operator = .lt) ∧ cond.operator ≠ .eq ∧
      0 ≤ cond.threshold := by
    intro input cond h
    obtain ⟨h1, h2⟩ := tryKeywords_some _ _ _ h
    refine ⟨h1, ?_, h2⟩
    rcases h1 with h1 | h1 <;> simp [h1]
  refine ⟨hparse, ?_, ?_, ?_, ?_, ?_⟩
  · intro u ta cs id now a h
    unfold createAlertCmd at h
    split at h
    · cases hp : parseCondition cs with
      | none => rw [hp] at h; exact absurd h (by simp)
      | some c =>
        rw [hp] at h
        obtain rfl := Option.some.inj (by simpa using h)
        obtain ⟨h1, h2, h3⟩ := hparse cs c hp
        exact ⟨h1, h2, h3⟩
    · exact absurd h (by simp)
  · simp +decide [parseCondition, tryKeywords, KEYWORDS, leadsWith,
      parseOpAndNumber, mkCondition, stripEq, numberMatches, isDigit,
      isJsSpace, parseFloatQ, natOfDigits, fracOfDigits, digitVal]
  · simp +decide [parseCondition, tryKeywords, KEYWORDS, leadsWith,
      parseOpAndNumber, mkCondition, stripEq, numberMatches, isDigit,
      isJsSpace, parseFloatQ, natOfDigits, fracOfDigits, digitVal]
  · simp +decide [parseCondition, tryKeywords, KEYWORDS, leadsWith,
      parseOpAndNumber, mkCondition, stripEq, numberMatches, isDigit,
      isJsSpace]
  · simp +decide [parseCondition, tryKeywords, KEYWORDS, leadsWith,
      parseOpAndNumber, mkCondition, stripEq, numberMatches, isDigit,
      isJsSpace]

/-- C10 witness token address: `0x` plus forty hex characters. -/
def c10Addr : String := "0xaaaaaaaaaaaaaaaaaaaaaaaaaaaaaaaaaaaaaaaa"

/-- Witness for C10: `price>=5` parses to the `>` operator with
threshold 5, and the created alert carries it. -/
theorem createAlertCmd_no_eq_operator_witness :
    (parseCondition "price>=5" = some ⟨.price, .gt, 5⟩ ∧
     createAlertCmd "u9" c10Addr "price>=5" 3 0 = some
       { id := 3, userId := "u9", tokenAddress := strLower c10Addr,
         conditionType := .price, operator := .gt, threshold := 5,
         triggered := false, createdAt := 0 }) ∧
    ((Operator.gt = .gt ∨ Operator.gt = .lt) ∧ Operator.gt ≠ .eq ∧
      (0 : ℚ) ≤ 5) := by
  have hp : parseCondition "price>=5" = some ⟨.price, .gt, 5⟩ := by
    simp +decide [parseCondition, tryKeywords, KEYWORDS, leadsWith,
      parseOpAndNumber, mkCondition, stripEq, numberMatches, isDigit,
      isJsSpace, parseFloatQ, natOfDigits, fracOfDigits, digitVal]
  have hc : createAlertCmd "u9" c10Addr "price>=5" 3 0 = some
      { id := 3, userId := "u9", tokenAddress := strLower c10Addr,
        conditionType := .price, operator := .gt, threshold := 5,
        triggered := false, createdAt := 0 } := by
    rw [createAlertCmd, if_pos (by decide), hp]
    rfl
  have h := (createAlertCmd_no_eq_operator.1 "price>=5" ⟨.price, .gt, 5⟩ hp)
  exact ⟨⟨hp, hc⟩, by simpa using h⟩

end BankrTracker
